import Mathlib

/-!
Shallow embedding of `src/mcp_server/agents/sql_agent.py` (class `SQLTool`).

External effects (database connection, catalog queries, the completion
service, statement execution) are passed in as explicit oracle values:
an `Except String _` models a Python call that either returns or raises,
and the cached connection handle `self._conn` is threaded as an explicit
`Option Conn` state.  Python strings are modelled as `String` (a list of
characters), with the string primitives the code uses (`strip`, `replace`,
`split`, `in`, `lower`, `join`, `startswith`) re-implemented below over
`List Char` so that everything is executable and provable.
-/

/-- Python `str.split(sep)` for a single-character separator `c`:
`"a.b".split "." = ["a","b"]`, `"".split "." = [""]`. -/
def splitChar (c : Char) : List Char → List (List Char)
  | [] => [[]]
  | a :: rest =>
    if a = c then [] :: splitChar c rest
    else
      match splitChar c rest with
      | r :: rs => (a :: r) :: rs
      | [] => [[a]]

/-- Python `str.strip()`: drop leading and trailing whitespace characters. -/
def trimData (l : List Char) : List Char :=
  ((l.dropWhile Char.isWhitespace).reverse.dropWhile Char.isWhitespace).reverse

/-- Core of Python `str.replace(pat, "")` for the non-empty pattern
`p :: ps`: scan left to right, removing every non-overlapping occurrence. -/
def removeAllCore (p : Char) (ps : List Char) : List Char → List Char
  | [] => []
  | c :: rest =>
    if (p :: ps).isPrefixOf (c :: rest) then removeAllCore p ps (rest.drop ps.length)
    else c :: removeAllCore p ps rest
termination_by l => l.length
decreasing_by
  · simp only [List.length_cons, List.length_drop]; omega
  · simp

/-- Python `str.replace(pat, "")`. -/
def removeAll (pat : List Char) (l : List Char) : List Char :=
  match pat with
  | [] => l
  | p :: ps => removeAllCore p ps l

/-- Python substring membership `pat in s`. -/
def containsSub (pat : List Char) : List Char → Bool
  | [] => pat.isEmpty
  | c :: rest => pat.isPrefixOf (c :: rest) || containsSub pat rest

/-- Python `sep.join(strings)`. -/
def joinSep (sep : String) : List String → String
  | [] => ""
  | [x] => x
  | x :: xs => x ++ sep ++ joinSep sep xs

/-- List-of-characters mirror of `joinSep`, used to reason about the
rendered schema text character by character. -/
def joinL (sep : List Char) : List (List Char) → List Char
  | [] => []
  | [x] => x
  | x :: xs => x ++ sep ++ joinL sep xs

/-- One column entry of the introspected schema:
the Python dict `{"name": row[0], "type": row[1]}`. -/
structure Column where
  name : String
  type : String
deriving DecidableEq, Repr

/-- The table-name → columns mapping built by `get_table_schema`
(a Python dict in insertion order). -/
abbrev Schema := List (String × List Column)

/-- A database cell value, before conversion with `str(cell)`. -/
inductive Cell where
  | s (v : String)
  | i (v : Int)
  | null
deriving DecidableEq

/-- Python `str(cell)` on a result cell. -/
def cellStr : Cell → String
  | .s v => v
  | .i v => toString v
  | .null => "None"

/-- The `data` payload of a successful query: column names and
stringified rows. -/
structure QueryData where
  columns : List String
  rows : List (List String)
deriving DecidableEq

/-- The dictionary built by `execute_query`: all four keys are always
present; `error` and `data` may hold Python `None`. -/
structure QueryResult where
  status : String
  query : String
  error : Option String
  data : Option QueryData
deriving DecidableEq

/-- The dictionary returned by `natural_language_to_sql_results`.  Its
generation-failure branch returns `{"status": ..., "error": ...}` with no
`query` or `data` keys at all, so presence of each key is tracked by an
outer `Option` (`none` = key absent, `some none` = key present holding
Python `None`). -/
structure PipeResult where
  status : String
  query : Option String
  error : Option (Option String)
  data : Option (Option QueryData)
deriving DecidableEq

/-- View of an `execute_query` dictionary as a pipeline result dictionary
(all four keys present). -/
def toPipe (r : QueryResult) : PipeResult :=
  { status := r.status, query := some r.query, error := some r.error, data := some r.data }

/-- An opaque connection token (`pytds.Connection` object identity). -/
abbrev Conn := Nat

/-- Oracle for one pass through `_get_connection`: the outcome of the
`SELECT 1` liveness probe on an existing connection, and the outcome of
`pytds.connect` if a fresh connection is attempted. -/
structure ConnEnv where
  probeOk : Bool
  connectRes : Except String Conn

/-- Oracle for the two catalog queries of `get_table_schema`: the
qualified base-table names, and for each `(schema, table)` pair the
`(COLUMN_NAME, DATA_TYPE)` rows. -/
structure CatalogData where
  tables : List String
  columns : String → String → List (String × String)

/-- Oracle for `cursor.execute(sql)` on the final statement: the cursor
description (name, type per column) and the fetched rows. -/
structure DBData where
  description : List (String × String)
  rows : List (List Cell)
deriving DecidableEq

/-- `pytds.connect` branch of `_get_connection`, reached when the
generator has not yielded yet (no cached handle, or the probe failed): on
success the handle is cached and the `with`-body runs at this first
`yield`; any exception (from connect, or from the body re-raised through
the `yield`) is caught by the outer `except`, which clears the handle and
re-raises `ConnectionError(f"Failed to connect to database: {e}")`. -/
def connectFresh (env : ConnEnv) (body : Conn → Except String α) :
    Except String α × Option Conn :=
  match env.connectRes with
  | .ok c =>
    match body c with
    | .ok a => (.ok a, some c)
    | .error e => (.error ("Failed to connect to database: " ++ e), none)
  | .error e => (.error ("Failed to connect to database: " ++ e), none)

/-- One acquisition through the `_get_connection` context manager plus the
body of the `with` block.  A cached handle is probed with `SELECT 1`; if
the probe fails the handle is closed and a fresh connect attempted.  When
the probe succeeds and the body then raises, the exception is thrown back
into the generator at the reuse-branch `yield`, caught by the inner bare
`except`, and the generator falls through to a fresh connect: if that
connect fails, the outer `except` wraps the connect error (the body's
error is lost) and clears the handle; if it succeeds, the new handle is
cached and the generator reaches a second `yield`, so contextlib raises
`RuntimeError("generator didn\x27t stop after throw()")` to the caller. -/
def withConnection (st : Option Conn) (env : ConnEnv) (body : Conn → Except String α) :
    Except String α × Option Conn :=
  match st with
  | some c =>
    if env.probeOk then
      match body c with
      | .ok a => (.ok a, some c)
      | .error _ =>
        match env.connectRes with
        | .ok c2 => (.error "generator didn\x27t stop after throw()", some c2)
        | .error e2 => (.error ("Failed to connect to database: " ++ e2), none)
    else connectFresh env body
  | none => connectFresh env body

/-- Python `schema, table_name = table.split(".")`: succeeds only when the
qualified name has exactly one dot, otherwise a `ValueError` is raised. -/
def splitQualified (t : String) : Option (String × String) :=
  match splitChar '.' t.data with
  | [a, b] => some (⟨a⟩, ⟨b⟩)
  | _ => none

/-- Python dict assignment `tables[table] = columns`: overwrite in place
if the key exists (keeping its position), else append. -/
def schemaInsert (tables : Schema) (key : String) (cols : List Column) : Schema :=
  if tables.any (fun e => e.1 == key) then
    tables.map (fun e => if e.1 == key then (key, cols) else e)
  else tables ++ [(key, cols)]

/-- The `for table in table_names` loop of `get_table_schema`: split each
qualified name, fetch its columns, and build the dict; a bad split raises
(propagating out of the loop). -/
def buildTables (cd : CatalogData) : List String → Schema → Except String Schema
  | [], acc => .ok acc
  | t :: ts, acc =>
    match splitQualified t with
    | none => .error "ValueError: not enough values to unpack"
    | some (sch, name) =>
      buildTables cd ts
        (schemaInsert acc t ((cd.columns sch name).map (fun r => ⟨r.1, r.2⟩)))

/-- `SQLTool.get_table_schema`: runs the catalog queries inside
`_get_connection`; on any exception it prints and returns `{}`. -/
def get_table_schema (st : Option Conn) (env : ConnEnv)
    (catalog : Except String CatalogData) : Schema × Option Conn :=
  match withConnection st env (fun _ => do
      let cd ← catalog
      buildTables cd cd.tables []) with
  | (.ok tables, st') => (tables, st')
  | (.error _, st') => ([], st')

/-- `SQLTool._format_schema_for_prompt`: each table rendered as
`name: col1 (type1), col2 (type2), ...`, the lines joined by newlines. -/
def _format_schema_for_prompt (schema : Schema) : String :=
  joinSep "\n" (schema.map (fun e =>
    e.1 ++ ": " ++ joinSep ", " (e.2.map (fun col => col.name ++ " (" ++ col.type ++ ")"))))

/-- The fixed instruction template of `generate_sql_query` with the schema
text and the question embedded. -/
def buildPrompt (schema_str natural_language_query : String) : String :=
  "You are a SQL query generator. Given the following database schema and a natural language question, generate the appropriate SQL query to answer the question.\n\nDATABASE SCHEMA:\n"
    ++ schema_str
    ++ "\n\nQUESTION:\n"
    ++ natural_language_query
    ++ "\n\nGenerate only the SQL query without any explanations or markdown formatting. The query should be valid for SQL Server.\nDo not include ```sql or ``` markers. Return only the raw SQL query."

/-- The backtick character, recovered from the fence marker string. -/
def fenceChar : Char := "```".data.headD ' '

/-- Post-processing of the completion text:
`response.content[0].text.strip()`, then
`.replace('```sql', '').replace('```', '')`, then `.strip()`. -/
def stripFences (text : String) : String :=
  ⟨trimData (removeAll "```".data (removeAll "```sql".data (trimData text.data)))⟩

/-- The keyword denylist of `generate_sql_query`. -/
def denylist : List String :=
  ["drop", "truncate", "delete", "update", "insert", "create"]

/-- The denylist check:
`any(keyword in sql_query.lower() for keyword in [...])`. -/
def isHarmful (sql_query : String) : Bool :=
  denylist.any (fun keyword => containsSub keyword.data (sql_query.data.map Char.toLower))

/-- `SQLTool.generate_sql_query`, parameterised by the already-computed
introspection result and by the completion-service outcome. -/
def generate_sql_query (schema : Schema) (natural_language_query : String)
    (completion : Except String String) : String :=
  if schema.isEmpty then "ERROR: Could not retrieve database schema"
  else
    let schema_str := _format_schema_for_prompt schema
    let prompt := buildPrompt schema_str natural_language_query
    match completion with
    | .error e => "ERROR: Failed to generate query: " ++ e
    | .ok text =>
      let sql_query := stripFences text
      if isHarmful sql_query then
        "ERROR: Potentially harmful query detected. Only SELECT queries are allowed."
      else sql_query

/-- `SQLTool.execute_query`: run the statement inside `_get_connection`,
package column names and stringified cells on success, or record the
exception's description on failure; the query text is always echoed. -/
def execute_query (st : Option Conn) (env : ConnEnv) (sql_query : String)
    (dbExec : Except String DBData) : QueryResult × Option Conn :=
  match withConnection st env (fun _ => dbExec) with
  | (.ok d, st') =>
    ({ status := "success", query := sql_query, error := none,
       data := some { columns := d.description.map Prod.fst,
                      rows := d.rows.map (fun row => row.map cellStr) } }, st')
  | (.error e, st') =>
    ({ status := "error", query := sql_query, error := some e, data := none }, st')

/-- Python `str.partition`-style break at the first occurrence of `c`:
the characters before it, and the remainder starting with `c` (or `[]`
when `c` does not occur). -/
def breakAtChar (c : Char) (l : List Char) : List Char × List Char :=
  (l.takeWhile (fun a => a != c), l.dropWhile (fun a => a != c))

/-- Modelled from the spec: one rendered column `name (type)` re-parsed;
the repository itself has no parser for the rendered schema text, so this
follows the spec's format description `col1 (type1)`. -/
def parseCol (l : List Char) : Option Column :=
  match breakAtChar '(' l with
  | (pre, _ :: rest) =>
    if pre.getLast? = some ' ' ∧ rest.getLast? = some ')' then
      some ⟨⟨pre.dropLast⟩, ⟨rest.dropLast⟩⟩
    else none
  | (_, []) => none

/-- Modelled from the spec: the column items after the first, each of
which carries the space of the `", "` separator. -/
def parseRest : List (List Char) → Option (List Column)
  | [] => some []
  | (' ' :: item) :: more => do
    let c ← parseCol item
    let cs ← parseRest more
    pure (c :: cs)
  | _ => none

/-- Modelled from the spec: the comma-separated column list of one line. -/
def parseCols : List (List Char) → Option (List Column)
  | [] => none
  | first :: more => do
    let c ← parseCol first
    let cs ← parseRest more
    pure (c :: cs)

/-- Modelled from the spec: one rendered line `table: col1 (type1), ...`. -/
def parseLine (l : List Char) : Option (String × List Column) :=
  match breakAtChar ':' l with
  | (table, _ :: ' ' :: body) =>
    (parseCols (splitChar ',' body)).map (fun cols => (⟨table⟩, cols))
  | _ => none

/-- Modelled from the spec: all lines of a rendered schema. -/
def parseLines : List (List Char) → Option Schema
  | [] => some []
  | l :: ls => do
    let e ← parseLine l
    let es ← parseLines ls
    pure (e :: es)

/-- Modelled from the spec: re-parse the text rendered by
`_format_schema_for_prompt` (`table: col (type), ...` joined by newlines)
back into a table → columns mapping. -/
def parseSchema (s : String) : Option Schema :=
  if s.data.isEmpty then some []
  else parseLines (splitChar '\n' s.data)

/-- Character-list form of one rendered column, `name (type)`. -/
def colFmtData (c : Column) : List Char :=
  c.name.data ++ ' ' :: '(' :: (c.type.data ++ [')'])

/-- Character-list form of one rendered schema line. -/
def lineData (e : String × List Column) : List Char :=
  e.1.data ++ ':' :: ' ' :: joinL [',', ' '] (e.2.map colFmtData)

/-- Well-formedness of a column for the round-trip: its name and type
avoid the separator characters the rendering uses ambiguously. -/
def colOk (c : Column) : Prop :=
  '\n' ∉ c.name.data ∧ ',' ∉ c.name.data ∧ '(' ∉ c.name.data ∧
  '\n' ∉ c.type.data ∧ ',' ∉ c.type.data

instance (c : Column) : Decidable (colOk c) := by unfold colOk; infer_instance

/-- Well-formedness of one table entry for the round-trip: the table name
avoids newline and colon, and the column list is non-empty with
well-formed columns. -/
def entryOk (e : String × List Column) : Prop :=
  '\n' ∉ e.1.data ∧ ':' ∉ e.1.data ∧ e.2 ≠ [] ∧ ∀ c ∈ e.2, colOk c

instance (e : String × List Column) : Decidable (entryOk e) := by
  unfold entryOk; infer_instance

/-- Well-formedness of a whole schema mapping for the round-trip. -/
def schemaOk (s : Schema) : Prop := ∀ e ∈ s, entryOk e

instance (s : Schema) : Decidable (schemaOk s) := by unfold schemaOk; infer_instance

/-- `SQLTool.natural_language_to_sql_results`: generate, then either
short-circuit on an `ERROR`-prefixed generation result (returning a dict
with only `status` and `error` keys) or execute. -/
def natural_language_to_sql_results (st : Option Conn) (genv xenv : ConnEnv)
    (catalog : Except String CatalogData) (natural_language_query : String)
    (completion : Except String String) (dbExec : Except String DBData) :
    PipeResult × Option Conn :=
  let s := get_table_schema st genv catalog
  let sql_query := generate_sql_query s.1 natural_language_query completion
  if "ERROR".data.isPrefixOf sql_query.data then
    ({ status := "error", query := none, error := some (some sql_query), data := none }, s.2)
  else
    let r := execute_query s.2 xenv sql_query dbExec
    (toPipe r.1, r.2)

/-! Helper lemmas about the character-level string primitives. -/

theorem mk_data (s : String) : String.mk s.data = s := by
  cases s; rfl

theorem isPrefixOf_append_self (l r : List Char) : l.isPrefixOf (l ++ r) = true := by
  induction l with
  | nil => simp [List.isPrefixOf]
  | cons a as ih => simp [List.isPrefixOf, ih]

theorem isPrefixOf_false_of_length (a b : List Char) (h : b.length < a.length) :
    a.isPrefixOf b = false := by
  induction a generalizing b with
  | nil => simp at h
  | cons x xs ih =>
    cases b with
    | nil => rfl
    | cons y ys =>
      simp only [List.isPrefixOf]
      rw [ih ys (by simpa using Nat.lt_of_succ_lt_succ h)]
      simp

theorem removeAllCore_nil (p : Char) (ps : List Char) : removeAllCore p ps [] = [] := by
  simp [removeAllCore]

theorem removeAllCore_cons (p : Char) (ps : List Char) (c : Char) (rest : List Char) :
    removeAllCore p ps (c :: rest) =
      if (p :: ps).isPrefixOf (c :: rest) then removeAllCore p ps (rest.drop ps.length)
      else c :: removeAllCore p ps rest := by
  simp [removeAllCore]

theorem removeAllCore_skip (p : Char) (ps l r : List Char) (h : ∀ x ∈ l, x ≠ p) :
    removeAllCore p ps (l ++ r) = l ++ removeAllCore p ps r := by
  induction l with
  | nil => rfl
  | cons c cs ih =>
    rw [List.cons_append, removeAllCore_cons]
    have hne : c ≠ p := h c (by simp)
    have hpc : (p == c) = false := beq_eq_false_iff_ne.mpr (Ne.symm hne)
    simp only [List.isPrefixOf, hpc, Bool.false_and, Bool.false_eq_true, if_false]
    rw [ih (fun x hx => h x (by simp [hx]))]
    simp

theorem removeAllCore_id (p : Char) (ps l : List Char) (h : ∀ x ∈ l, x ≠ p) :
    removeAllCore p ps l = l := by
  have := removeAllCore_skip p ps l [] h
  simpa [removeAllCore_nil] using this

theorem removeAllCore_run (p : Char) (ps r : List Char) :
    removeAllCore p ps ((p :: ps) ++ r) = removeAllCore p ps r := by
  rw [List.cons_append, removeAllCore_cons]
  rw [show (p :: ps).isPrefixOf (p :: (ps ++ r)) = true from isPrefixOf_append_self _ _]
  simp [List.drop_left]

theorem removeAllCore_short (p : Char) (ps l : List Char) (h : l.length < ps.length + 1) :
    removeAllCore p ps l = l := by
  induction l with
  | nil => exact removeAllCore_nil p ps
  | cons c cs ih =>
    rw [removeAllCore_cons]
    rw [isPrefixOf_false_of_length _ _ (by simpa using h)]
    simp only [Bool.false_eq_true, if_false]
    rw [ih (by simp at h ⊢; omega)]

theorem removeAllCore_no_occur (p : Char) (ps l : List Char)
    (h : containsSub (p :: ps) l = false) : removeAllCore p ps l = l := by
  induction l with
  | nil => exact removeAllCore_nil p ps
  | cons c cs ih =>
    simp only [containsSub, Bool.or_eq_false_iff] at h
    rw [removeAllCore_cons, h.1]
    simp only [Bool.false_eq_true, if_false]
    rw [ih h.2]

theorem dropWhile_head_not (p : Char → Bool) (l : List Char) (c : Char)
    (h : (l.dropWhile p).head? = some c) : p c = false := by
  induction l with
  | nil => simp at h
  | cons a t ih =>
    rw [List.dropWhile_cons] at h
    by_cases hp : p a = true
    · rw [if_pos hp] at h; exact ih h
    · rw [if_neg hp] at h
      simp only [List.head?_cons, Option.some.injEq] at h
      rw [← h]; simpa using hp

theorem dropWhile_eq_self_of_head (p : Char → Bool) (l : List Char)
    (h : ∀ c, l.head? = some c → p c = false) : l.dropWhile p = l := by
  cases l with
  | nil => rfl
  | cons a t => rw [List.dropWhile_cons, h a rfl]; simp

theorem trimData_no_trim (l : List Char)
    (h1 : ∀ c, l.head? = some c → c.isWhitespace = false)
    (h2 : ∀ c, l.getLast? = some c → c.isWhitespace = false) :
    trimData l = l := by
  unfold trimData
  rw [dropWhile_eq_self_of_head _ _ h1]
  rw [dropWhile_eq_self_of_head _ _
    (fun c hc => h2 c (by rwa [List.head?_reverse] at hc))]
  rw [List.reverse_reverse]

theorem trimData_getLast_not (l : List Char) (c : Char)
    (h : (trimData l).getLast? = some c) : c.isWhitespace = false := by
  unfold trimData at h
  rw [List.getLast?_reverse] at h
  exact dropWhile_head_not _ _ _ h

theorem trimData_head_not (l : List Char) (c : Char)
    (h : (trimData l).head? = some c) : c.isWhitespace = false := by
  unfold trimData at h
  rw [List.head?_reverse] at h
  set Y := (l.dropWhile Char.isWhitespace).reverse with hY
  cases hX : Y.dropWhile Char.isWhitespace with
  | nil => rw [hX] at h; simp at h
  | cons x xs =>
    have hsplit : Y.takeWhile Char.isWhitespace ++ Y.dropWhile Char.isWhitespace = Y :=
      List.takeWhile_append_dropWhile _ _
    have hfin : (Y.dropWhile Char.isWhitespace).getLast? = Y.getLast? := by
      conv_rhs => rw [← hsplit]
      rw [List.getLast?_append_of_ne_nil _ (by rw [hX]; simp)]
    rw [hfin] at h
    rw [hY, List.getLast?_reverse] at h
    exact dropWhile_head_not _ _ _ h

theorem trimData_idem (l : List Char) : trimData (trimData l) = trimData l :=
  trimData_no_trim _ (fun c h => trimData_head_not l c h)
    (fun c h => trimData_getLast_not l c h)

theorem mem_trimData (l : List Char) (c : Char) (h : c ∈ trimData l) : c ∈ l := by
  unfold trimData at h
  rw [List.mem_reverse] at h
  have h2 := (List.dropWhile_sublist (l := (l.dropWhile Char.isWhitespace).reverse)
    (p := Char.isWhitespace)).mem h
  rw [List.mem_reverse] at h2
  exact (List.dropWhile_sublist _).mem h2

theorem stripFences_no_fence (s : String) (hs : ∀ c ∈ s.data, c ≠ fenceChar) :
    stripFences s = ⟨trimData s.data⟩ := by
  have h1 : ∀ x ∈ trimData s.data, x ≠ fenceChar :=
    fun x hx => hs x (mem_trimData _ _ hx)
  unfold stripFences
  rw [show ("```sql".data) = fenceChar :: "``sql".data from by decide]
  rw [show ("```".data) = fenceChar :: "``".data from by decide]
  simp only [removeAll]
  rw [removeAllCore_id _ _ _ h1, removeAllCore_id _ _ _ h1, trimData_idem]

theorem stripFences_fenced (s : String) (hs : ∀ c ∈ s.data, c ≠ fenceChar) :
    stripFences ("```sql" ++ s ++ "```") = ⟨trimData s.data⟩ := by
  have key : trimData (removeAll "```".data (removeAll "```sql".data
      (trimData (("```sql" ++ s ++ "```").data)))) = trimData s.data := by
    rw [String.data_append, String.data_append, List.append_assoc]
    have htrim : trimData ("```sql".data ++ (s.data ++ "```".data))
        = "```sql".data ++ (s.data ++ "```".data) := by
      apply trimData_no_trim
      · intro c hc
        rw [show ("```sql".data) = fenceChar :: "``sql".data from by decide,
          List.cons_append, List.head?_cons] at hc
        obtain rfl : fenceChar = c := by simpa using hc
        decide
      · intro c hc
        rw [List.getLast?_append_of_ne_nil _ (by
          intro hnil
          exact absurd (List.append_eq_nil.mp hnil).2 (by decide))] at hc
        rw [List.getLast?_append_of_ne_nil _ (by decide)] at hc
        obtain rfl : c = fenceChar := by
          rw [show ("```".data).getLast? = some fenceChar from by decide] at hc
          simpa [eq_comm] using hc
        decide
    have e1 : removeAllCore fenceChar "``sql".data
        ((fenceChar :: "``sql".data) ++ (s.data ++ (fenceChar :: "``".data)))
        = s.data ++ (fenceChar :: "``".data) := by
      rw [removeAllCore_run]
      rw [removeAllCore_skip _ _ _ _ hs]
      rw [removeAllCore_short fenceChar ("``sql".data) (fenceChar :: "``".data) (by decide)]
    have e2 : removeAllCore fenceChar "``".data (s.data ++ (fenceChar :: "``".data))
        = s.data := by
      rw [removeAllCore_skip _ _ _ _ hs]
      rw [show (fenceChar :: "``".data) = (fenceChar :: "``".data) ++ [] from by simp]
      rw [removeAllCore_run, removeAllCore_nil, List.append_nil]
    rw [htrim]
    rw [show ("```sql".data) = fenceChar :: "``sql".data from by decide]
    rw [show ("```".data) = fenceChar :: "``".data from by decide]
    simp only [removeAll]
    rw [e1, e2]
  unfold stripFences
  rw [key]

/-! Helper lemmas for the schema-format round trip. -/

theorem joinSep_data (sep : String) (l : List String) :
    (joinSep sep l).data = joinL sep.data (l.map String.data) := by
  induction l with
  | nil => rfl
  | cons x xs ih =>
    cases xs with
    | nil => rfl
    | cons y ys =>
      simp only [joinSep, joinL, List.map_cons, String.data_append]
      rw [ih]
      simp

theorem colFmt_data (col : Column) :
    (col.name ++ " (" ++ col.type ++ ")").data = colFmtData col := by
  simp only [String.data_append, colFmtData]
  simp

theorem line_data (e : String × List Column) :
    (e.1 ++ ": " ++ joinSep ", " (e.2.map (fun col => col.name ++ " (" ++ col.type ++ ")"))).data
      = lineData e := by
  simp only [String.data_append, joinSep_data, List.map_map, lineData]
  have : (String.data ∘ fun col : Column => col.name ++ " (" ++ col.type ++ ")") = colFmtData :=
    funext fun col => colFmt_data col
  rw [this]
  simp

theorem format_data (s : Schema) :
    (_format_schema_for_prompt s).data = joinL "\n".data (s.map lineData) := by
  unfold _format_schema_for_prompt
  rw [joinSep_data, List.map_map]
  congr 1
  exact List.map_congr_left fun e _ => line_data e

theorem splitChar_no (c : Char) (l : List Char) (h : c ∉ l) : splitChar c l = [l] := by
  induction l with
  | nil => rfl
  | cons a rest ih =>
    have ha : ¬(a = c) := fun hac => h (by simp [hac])
    simp only [splitChar, if_neg ha]
    rw [ih (fun hc => h (by simp [hc]))]

theorem splitChar_sep (c : Char) (a r : List Char) (h : c ∉ a) :
    splitChar c (a ++ c :: r) = a :: splitChar c r := by
  induction a with
  | nil => simp [splitChar]
  | cons d a' ih =>
    have hd : ¬(d = c) := fun hdc => h (by simp [hdc])
    simp only [List.cons_append, splitChar, if_neg hd, List.append_eq]
    rw [ih (fun hc => h (by simp [hc]))]

theorem splitChar_comma_joinL (i : List Char) (is : List (List Char))
    (h : ∀ x ∈ i :: is, ',' ∉ x) :
    splitChar ',' (joinL [',', ' '] (i :: is)) = i :: is.map (fun x => ' ' :: x) := by
  induction is generalizing i with
  | nil => simpa using splitChar_no ',' i (h i (by simp))
  | cons j js ih =>
    have hji : joinL [',', ' '] (i :: j :: js) = i ++ ',' :: (' ' :: joinL [',', ' '] (j :: js)) := by
      simp [joinL]
    rw [hji, splitChar_sep ',' i _ (h i (by simp))]
    have hrec := ih j (fun x hx => h x (List.mem_cons_of_mem _ hx))
    have hsp : splitChar ',' (' ' :: joinL [',', ' '] (j :: js))
        = (' ' :: j) :: js.map (fun x => ' ' :: x) := by
      simp only [splitChar]
      rw [hrec]
      simp
    rw [hsp]
    simp

theorem takeWhile_ne_append (c : Char) (a b : List Char) (h : c ∉ a) :
    (a ++ c :: b).takeWhile (fun x => x != c) = a := by
  induction a with
  | nil => simp [List.takeWhile_cons]
  | cons d a' ih =>
    have hd : (d != c) = true := bne_iff_ne.mpr (fun hdc => h (by simp [hdc]))
    simp only [List.cons_append, List.takeWhile_cons, hd]
    rw [ih (fun hc => h (by simp [hc]))]
    simp

theorem dropWhile_ne_append (c : Char) (a b : List Char) (h : c ∉ a) :
    (a ++ c :: b).dropWhile (fun x => x != c) = c :: b := by
  induction a with
  | nil => simp [List.dropWhile_cons]
  | cons d a' ih =>
    have hd : (d != c) = true := bne_iff_ne.mpr (fun hdc => h (by simp [hdc]))
    simp only [List.cons_append, List.dropWhile_cons, hd]
    rw [ih (fun hc => h (by simp [hc]))]
    simp

theorem breakAtChar_append (c : Char) (a b : List Char) (h : c ∉ a) :
    breakAtChar c (a ++ c :: b) = (a, c :: b) := by
  unfold breakAtChar
  rw [takeWhile_ne_append c a b h, dropWhile_ne_append c a b h]

theorem parseCol_colFmt (col : Column) (h : '(' ∉ col.name.data) :
    parseCol (colFmtData col) = some col := by
  unfold parseCol colFmtData
  have hshape : col.name.data ++ ' ' :: '(' :: (col.type.data ++ [')'])
      = (col.name.data ++ [' ']) ++ '(' :: (col.type.data ++ [')']) := by simp
  rw [hshape, breakAtChar_append '(' _ _ (by
    intro hc
    rcases List.mem_append.mp hc with hc | hc
    · exact h hc
    · simp at hc)]
  simp [List.getLast?_concat, List.dropLast_concat, mk_data]

theorem parseRest_cols (cols : List Column) (h : ∀ c ∈ cols, '(' ∉ c.name.data) :
    parseRest (cols.map (fun c => ' ' :: colFmtData c)) = some cols := by
  induction cols with
  | nil => rfl
  | cons c cs ih =>
    simp only [List.map_cons, parseRest]
    rw [parseCol_colFmt c (h c (by simp))]
    rw [ih (fun x hx => h x (List.mem_cons_of_mem _ hx))]
    rfl

theorem parseCols_cols (c : Column) (cs : List Column)
    (h : ∀ x ∈ c :: cs, '(' ∉ x.name.data) :
    parseCols (colFmtData c :: cs.map (fun x => ' ' :: colFmtData x)) = some (c :: cs) := by
  simp only [parseCols]
  rw [parseCol_colFmt c (h c (by simp))]
  rw [parseRest_cols cs (fun x hx => h x (List.mem_cons_of_mem _ hx))]
  rfl

theorem comma_not_in_colFmt (col : Column) (h : colOk col) : ',' ∉ colFmtData col := by
  unfold colFmtData
  intro hc
  rcases List.mem_append.mp hc with hc | hc
  · exact h.2.1 hc
  · simp only [List.mem_cons, List.mem_append, List.mem_singleton] at hc
    rcases hc with hc | hc | hc | hc
    · exact absurd hc (by decide)
    · exact absurd hc (by decide)
    · exact h.2.2.2.2 hc
    · exact absurd hc (by decide)

theorem newline_not_in_colFmt (col : Column) (h : colOk col) : '\n' ∉ colFmtData col := by
  unfold colFmtData
  intro hc
  rcases List.mem_append.mp hc with hc | hc
  · exact h.1 hc
  · simp only [List.mem_cons, List.mem_append, List.mem_singleton] at hc
    rcases hc with hc | hc | hc | hc
    · exact absurd hc (by decide)
    · exact absurd hc (by decide)
    · exact h.2.2.2.1 hc
    · exact absurd hc (by decide)

theorem mem_joinL (sep : List Char) (ls : List (List Char)) (c : Char)
    (h : c ∈ joinL sep ls) : c ∈ sep ∨ ∃ x ∈ ls, c ∈ x := by
  induction ls with
  | nil => simp [joinL] at h
  | cons x xs ih =>
    cases xs with
    | nil => exact Or.inr ⟨x, by simp, by simpa [joinL] using h⟩
    | cons y ys =>
      simp only [joinL] at h
      rcases List.mem_append.mp h with h1 | h2
      · rcases List.mem_append.mp h1 with ha | hb
        · exact Or.inr ⟨x, by simp, ha⟩
        · exact Or.inl hb
      · rcases ih h2 with h3 | ⟨z, hz, hcz⟩
        · exact Or.inl h3
        · exact Or.inr ⟨z, List.mem_cons_of_mem _ hz, hcz⟩

theorem newline_not_in_lineData (e : String × List Column) (h : entryOk e) :
    '\n' ∉ lineData e := by
  unfold lineData
  intro hc
  rcases List.mem_append.mp hc with hc | hc
  · exact h.1 hc
  · simp only [List.mem_cons] at hc
    rcases hc with hc | hc | hc
    · exact absurd hc (by decide)
    · exact absurd hc (by decide)
    · rcases mem_joinL _ _ _ hc with hs | ⟨z, hz, hcz⟩
      · exact absurd hs (by decide)
      · obtain ⟨col, hcol, rfl⟩ := List.mem_map.mp hz
        exact newline_not_in_colFmt col (h.2.2.2 col hcol) hcz

theorem lineData_ne_nil (e : String × List Column) : lineData e ≠ [] := by
  unfold lineData
  intro h
  rcases List.append_eq_nil.mp h with ⟨_, h2⟩
  simp at h2

theorem joinL_ne_nil (sep : List Char) (x : List Char) (xs : List (List Char))
    (hx : x ≠ []) : joinL sep (x :: xs) ≠ [] := by
  cases xs with
  | nil => simpa [joinL] using hx
  | cons y ys =>
    intro h
    exact hx (List.append_eq_nil.mp (List.append_eq_nil.mp h).1).1

theorem parseLine_lineData (e : String × List Column) (h : entryOk e) :
    parseLine (lineData e) = some e := by
  obtain ⟨t, cols⟩ := e
  obtain ⟨h1, h2, h3, h4⟩ := h
  cases cols with
  | nil => exact absurd rfl h3
  | cons c cs =>
    unfold parseLine lineData
    rw [breakAtChar_append ':' _ _ h2]
    simp only [List.map_cons]
    rw [splitChar_comma_joinL (colFmtData c) (cs.map colFmtData) (by
      intro x hx
      rcases List.mem_cons.mp hx with rfl | hx
      · exact comma_not_in_colFmt c (h4 c (by simp))
      · obtain ⟨col, hcol, rfl⟩ := List.mem_map.mp hx
        exact comma_not_in_colFmt col (h4 col (List.mem_cons_of_mem _ hcol)))]
    simp only [List.map_map, Function.comp_def]
    rw [parseCols_cols c cs (by
      intro x hx
      exact ((h4 x hx).2.2.1))]
    simp [mk_data]

theorem splitChar_joinL (c : Char) (ls : List (List Char)) (hne : ls ≠ [])
    (h : ∀ x ∈ ls, c ∉ x) : splitChar c (joinL [c] ls) = ls := by
  induction ls with
  | nil => exact absurd rfl hne
  | cons x xs ih =>
    cases xs with
    | nil => simpa [joinL] using splitChar_no c x (h x (by simp))
    | cons y ys =>
      have hj : joinL [c] (x :: y :: ys) = x ++ c :: joinL [c] (y :: ys) := by
        simp [joinL]
      rw [hj, splitChar_sep c x _ (h x (by simp))]
      rw [ih (by simp) (fun z hz => h z (List.mem_cons_of_mem _ hz))]

theorem parseLines_map (s : Schema) (h : schemaOk s) :
    parseLines (s.map lineData) = some s := by
  induction s with
  | nil => rfl
  | cons e es ih =>
    simp only [List.map_cons, parseLines]
    rw [parseLine_lineData e (h e (by simp))]
    rw [ih (fun x hx => h x (List.mem_cons_of_mem _ hx))]
    rfl

/-! Helper lemmas about `execute_query` and `generate_sql_query`. -/

theorem execute_query_cases (st : Option Conn) (env : ConnEnv) (q : String)
    (db : Except String DBData) :
    (∃ d, db = .ok d ∧ (execute_query st env q db).1 =
        { status := "success", query := q, error := none,
          data := some { columns := d.description.map Prod.fst,
                         rows := d.rows.map (fun row => row.map cellStr) } })
    ∨ (∃ e, (execute_query st env q db).1 =
        { status := "error", query := q,
          error := some ("Failed to connect to database: " ++ e), data := none })
    ∨ (execute_query st env q db).1 =
        { status := "error", query := q,
          error := some "generator didn\x27t stop after throw()", data := none } := by
  obtain ⟨pb, cr⟩ := env
  cases st with
  | some c =>
    cases pb with
    | true =>
      cases db with
      | ok d => exact Or.inl ⟨d, rfl, rfl⟩
      | error e =>
        cases cr with
        | ok c2 => exact Or.inr (Or.inr rfl)
        | error e2 => exact Or.inr (Or.inl ⟨e2, rfl⟩)
    | false =>
      cases cr with
      | ok c2 =>
        cases db with
        | ok d => exact Or.inl ⟨d, rfl, rfl⟩
        | error e => exact Or.inr (Or.inl ⟨e, rfl⟩)
      | error e => exact Or.inr (Or.inl ⟨e, rfl⟩)
  | none =>
    cases cr with
    | ok c2 =>
      cases db with
      | ok d => exact Or.inl ⟨d, rfl, rfl⟩
      | error e => exact Or.inr (Or.inl ⟨e, rfl⟩)
    | error e => exact Or.inr (Or.inl ⟨e, rfl⟩)

theorem execute_query_query (st : Option Conn) (env : ConnEnv) (q : String)
    (db : Except String DBData) : (execute_query st env q db).1.query = q := by
  rcases execute_query_cases st env q db with ⟨d, _, hr⟩ | ⟨e, hr⟩ | hr <;> rw [hr]

theorem execute_query_status (st : Option Conn) (env : ConnEnv) (q : String)
    (db : Except String DBData) :
    (execute_query st env q db).1.status = "success" ∨
    (execute_query st env q db).1.status = "error" := by
  rcases execute_query_cases st env q db with ⟨d, _, hr⟩ | ⟨e, hr⟩ | hr
  · exact Or.inl (by rw [hr])
  · exact Or.inr (by rw [hr])
  · exact Or.inr (by rw [hr])

theorem generate_nonempty_error (t : String) (cols : List Column) (rest : Schema)
    (q e : String) :
    generate_sql_query ((t, cols) :: rest) q (.error e) =
      "ERROR: Failed to generate query: " ++ e := rfl

/-! Claim theorems. -/

/-- C1: for every text returned by the completion service, if the
fence-stripped text contains a denylisted keyword (case-insensitive, at any
position), `generate_sql_query` returns the sentinel error string instead
of the query, and `natural_language_to_sql_results` returns an error
result that is the same for every database oracle, so the text is never
passed to the database execution step. -/
theorem C1_denylist_rejects (st : Option Conn) (genv xenv : ConnEnv)
    (catalog : Except String CatalogData) (q text : String)
    (dbExec : Except String DBData)
    (hne : (get_table_schema st genv catalog).1 ≠ [])
    (hkw : isHarmful (stripFences text) = true) :
    generate_sql_query (get_table_schema st genv catalog).1 q (.ok text) =
      "ERROR: Potentially harmful query detected. Only SELECT queries are allowed." ∧
    natural_language_to_sql_results st genv xenv catalog q (.ok text) dbExec =
      ({ status := "error", query := none,
         error := some (some "ERROR: Potentially harmful query detected. Only SELECT queries are allowed."),
         data := none }, (get_table_schema st genv catalog).2) := by
  have hgen : generate_sql_query (get_table_schema st genv catalog).1 q (.ok text) =
      "ERROR: Potentially harmful query detected. Only SELECT queries are allowed." := by
    unfold generate_sql_query
    rw [if_neg (by simpa [List.isEmpty_iff] using hne)]
    simp only [hkw, if_true]
  refine ⟨hgen, ?_⟩
  simp only [natural_language_to_sql_results, hgen]
  rw [if_pos (by decide)]

/-- C1 witness: a `DROP TABLE` completion against a one-table schema is
rejected and never executed. -/
theorem C1_witness :
    generate_sql_query
        (get_table_schema none ⟨true, .ok 0⟩ (.ok ⟨["S.T"], fun _ _ => [("c", "int")]⟩)).1
        "top orders" (.ok "DROP TABLE Orders;") =
      "ERROR: Potentially harmful query detected. Only SELECT queries are allowed." ∧
    natural_language_to_sql_results none ⟨true, .ok 0⟩ ⟨true, .ok 0⟩
        (.ok ⟨["S.T"], fun _ _ => [("c", "int")]⟩) "top orders"
        (.ok "DROP TABLE Orders;") (.ok ⟨[], []⟩) =
      ({ status := "error", query := none,
         error := some (some "ERROR: Potentially harmful query detected. Only SELECT queries are allowed."),
         data := none },
       (get_table_schema none ⟨true, .ok 0⟩ (.ok ⟨["S.T"], fun _ _ => [("c", "int")]⟩)).2) :=
  C1_denylist_rejects none ⟨true, .ok 0⟩ ⟨true, .ok 0⟩
    (.ok ⟨["S.T"], fun _ _ => [("c", "int")]⟩) "top orders" "DROP TABLE Orders;"
    (.ok ⟨[], []⟩) (by decide)
    (by rw [stripFences_no_fence _ (by decide)]; decide)

/-- C2: whenever schema introspection produces an empty mapping,
`generate_sql_query` returns the `ERROR:`-prefixed sentinel and the
pipeline returns a status=error result that is the same for every
execution oracle, so `execute_query` is never invoked. -/
theorem C2_empty_schema (st : Option Conn) (genv xenv : ConnEnv)
    (catalog : Except String CatalogData) (q : String)
    (completion : Except String String) (dbExec : Except String DBData)
    (h : (get_table_schema st genv catalog).1 = []) :
    generate_sql_query (get_table_schema st genv catalog).1 q completion =
      "ERROR: Could not retrieve database schema" ∧
    "ERROR:".data.isPrefixOf
        (generate_sql_query (get_table_schema st genv catalog).1 q completion).data = true ∧
    natural_language_to_sql_results st genv xenv catalog q completion dbExec =
      ({ status := "error", query := none,
         error := some (some "ERROR: Could not retrieve database schema"), data := none },
       (get_table_schema st genv catalog).2) := by
  have hgen : generate_sql_query (get_table_schema st genv catalog).1 q completion =
      "ERROR: Could not retrieve database schema" := by
    rw [h]; rfl
  refine ⟨hgen, by rw [hgen]; decide, ?_⟩
  simp only [natural_language_to_sql_results, hgen]
  rw [if_pos (by decide)]

/-- C2 witness: a failed catalog query yields an empty schema, the
sentinel, and an error pipeline result. -/
theorem C2_witness :
    generate_sql_query (get_table_schema none ⟨true, .ok 0⟩ (.error "login failed")).1
        "top orders" (.ok "SELECT 1") = "ERROR: Could not retrieve database schema" ∧
    "ERROR:".data.isPrefixOf
        (generate_sql_query (get_table_schema none ⟨true, .ok 0⟩ (.error "login failed")).1
          "top orders" (.ok "SELECT 1")).data = true ∧
    natural_language_to_sql_results none ⟨true, .ok 0⟩ ⟨true, .ok 0⟩ (.error "login failed")
        "top orders" (.ok "SELECT 1") (.ok ⟨[], []⟩) =
      ({ status := "error", query := none,
         error := some (some "ERROR: Could not retrieve database schema"), data := none },
       (get_table_schema none ⟨true, .ok 0⟩ (.error "login failed")).2) :=
  C2_empty_schema none ⟨true, .ok 0⟩ ⟨true, .ok 0⟩ (.error "login failed") "top orders"
    (.ok "SELECT 1") (.ok ⟨[], []⟩) (by decide)

/-- C3 counterexample: on the generation-failure path the pipeline result
has no `query` key and no `data` key, so the claimed four-key shape with
the query echoed does not hold on every path. -/
theorem C3_counterexample :
    (natural_language_to_sql_results none ⟨true, .ok 0⟩ ⟨true, .ok 0⟩
        (.error "connection refused") "q" (.ok "SELECT 1") (.ok ⟨[], []⟩)).1.query = none ∧
    (natural_language_to_sql_results none ⟨true, .ok 0⟩ ⟨true, .ok 0⟩
        (.error "connection refused") "q" (.ok "SELECT 1") (.ok ⟨[], []⟩)).1.data = none := by
  decide

/-- C3 (amended): every pipeline result either comes from the execute path
and then has all four keys with the generated query echoed, or is the
generation-failure shape `{status: error, error: <ERROR-prefixed text>}`
with no `query` and no `data` key. -/
theorem C3_result_shape (st : Option Conn) (genv xenv : ConnEnv)
    (catalog : Except String CatalogData) (q : String)
    (completion : Except String String) (dbExec : Except String DBData) :
    ((natural_language_to_sql_results st genv xenv catalog q completion dbExec).1.status = "error" ∧
     (natural_language_to_sql_results st genv xenv catalog q completion dbExec).1.query = none ∧
     (natural_language_to_sql_results st genv xenv catalog q completion dbExec).1.data = none ∧
     ∃ m, (natural_language_to_sql_results st genv xenv catalog q completion dbExec).1.error
         = some (some m) ∧ "ERROR".data.isPrefixOf m.data = true) ∨
    ((natural_language_to_sql_results st genv xenv catalog q completion dbExec).1.query
        = some (generate_sql_query (get_table_schema st genv catalog).1 q completion) ∧
     (natural_language_to_sql_results st genv xenv catalog q completion dbExec).1.error.isSome = true ∧
     (natural_language_to_sql_results st genv xenv catalog q completion dbExec).1.data.isSome = true) := by
  simp only [natural_language_to_sql_results]
  split
  next hpre => exact Or.inl ⟨rfl, rfl, rfl, _, rfl, hpre⟩
  next hpre =>
    refine Or.inr ⟨?_, rfl, rfl⟩
    show some (execute_query _ xenv _ dbExec).1.query = _
    rw [execute_query_query]

/-- C4: `execute_query` always echoes the query text and returns either
a success result whose data holds the descriptor's column names and every
cell converted to text, or an error result with data absent whose error
field holds the description of the exception that reached the handler:
the `ConnectionError` wrapping raised by the connection context manager,
or the `RuntimeError` contextlib raises when a dead-looking body on a
probed connection makes the generator reconnect and yield a second time;
as a total function it never raises. -/
theorem C4_execute_shape (st : Option Conn) (env : ConnEnv) (q : String)
    (db : Except String DBData) :
    (execute_query st env q db).1.query = q ∧
    (((execute_query st env q db).1.status = "success" ∧
      (execute_query st env q db).1.error = none ∧
      ∃ d, db = .ok d ∧ (execute_query st env q db).1.data =
        some { columns := d.description.map Prod.fst,
               rows := d.rows.map (fun row => row.map cellStr) }) ∨
     ((execute_query st env q db).1.status = "error" ∧
      (execute_query st env q db).1.data = none ∧
      ∃ e, (execute_query st env q db).1.error = some e ∧
        ((∃ e0, e = "Failed to connect to database: " ++ e0) ∨
         e = "generator didn\x27t stop after throw()"))) := by
  refine ⟨execute_query_query st env q db, ?_⟩
  rcases execute_query_cases st env q db with ⟨d, hd, hr⟩ | ⟨e, hr⟩ | hr
  · exact Or.inl ⟨by rw [hr], by rw [hr], d, hd, by rw [hr]⟩
  · exact Or.inr ⟨by rw [hr], by rw [hr], _, by rw [hr], Or.inl ⟨e, rfl⟩⟩
  · exact Or.inr ⟨by rw [hr], by rw [hr], _, by rw [hr], Or.inr rfl⟩

/-- C5: for `execute_query` the data field is non-null exactly on
status=success, and for the pipeline the data key is present and non-null
exactly on status=success. -/
theorem C5_data_iff_success (st : Option Conn) (env : ConnEnv) (q : String)
    (db : Except String DBData) (pst : Option Conn) (genv xenv : ConnEnv)
    (catalog : Except String CatalogData) (q2 : String)
    (completion : Except String String) (dbExec : Except String DBData) :
    ((execute_query st env q db).1.data.isSome = true ↔
      (execute_query st env q db).1.status = "success") ∧
    ((natural_language_to_sql_results pst genv xenv catalog q2 completion dbExec).1.data.join.isSome = true ↔
      (natural_language_to_sql_results pst genv xenv catalog q2 completion dbExec).1.status = "success") := by
  constructor
  · rcases execute_query_cases st env q db with ⟨d, _, hr⟩ | ⟨e, hr⟩ | hr
    · rw [hr]; simp
    · rw [hr]; simp
    · rw [hr]; simp
  · simp only [natural_language_to_sql_results]
    split
    · simp
    · rcases execute_query_cases (get_table_schema pst genv catalog).2 xenv
          (generate_sql_query (get_table_schema pst genv catalog).1 q2 completion) dbExec with
        ⟨d, _, hr⟩ | ⟨e, hr⟩ | hr
      · rw [hr]; simp [toPipe]
      · rw [hr]; simp [toPipe]
      · rw [hr]; simp [toPipe]

/-- C6 counterexample: an interior code-fence marker (neither leading nor
trailing, with no surrounding whitespace to strip) is also removed, so the
post-processing does not leave interior content unchanged. -/
theorem C6_counterexample :
    stripFences "SELECT ``` 1" = "SELECT  1" ∧
    ("SELECT  1" : String) ≠ "SELECT ``` 1" := by
  constructor
  · simp [stripFences, removeAll, removeAllCore, trimData]
  · decide

/-- C6 (amended): the post-processing removes every occurrence of the
fence markers anywhere in the text (not only leading and trailing ones)
and trims surrounding whitespace; in particular a backtick-free text
wrapped in `` ```sql ... ``` `` yields the trimmed body, and a
backtick-free text is only whitespace-trimmed. -/
theorem C6_strip_behaviour (s : String) (hs : ∀ c ∈ s.data, c ≠ fenceChar) :
    stripFences ("```sql" ++ s ++ "```") = ⟨trimData s.data⟩ ∧
    stripFences s = ⟨trimData s.data⟩ :=
  ⟨stripFences_fenced s hs, stripFences_no_fence s hs⟩

/-- C6 witness: stripping a fenced and an unfenced query. -/
theorem C6_witness :
    stripFences ("```sql" ++ " SELECT 1 FROM t " ++ "```") = ⟨trimData " SELECT 1 FROM t ".data⟩ ∧
    stripFences " SELECT 1 FROM t " = ⟨trimData " SELECT 1 FROM t ".data⟩ :=
  C6_strip_behaviour " SELECT 1 FROM t " (by decide)

/-- C7 counterexample: two different schema mappings render to the same
text (a column name may contain the rendered separators), so re-parsing
cannot recover every original mapping; the parser returns the other
mapping for this one. -/
theorem C7_counterexample :
    _format_schema_for_prompt [("a", [⟨"b (t1), c", "t2"⟩])] =
      _format_schema_for_prompt [("a", [⟨"b", "t1"⟩, ⟨"c", "t2"⟩])] ∧
    ([("a", [Column.mk "b (t1), c" "t2"])] : Schema) ≠
      [("a", [Column.mk "b" "t1", Column.mk "c" "t2"])] ∧
    parseSchema (_format_schema_for_prompt [("a", [⟨"b (t1), c", "t2"⟩])]) ≠
      some [("a", [⟨"b (t1), c", "t2"⟩])] := by
  refine ⟨by decide, by decide, by decide⟩

/-- C7 (amended): for every schema mapping whose table names avoid newline
and colon and whose column names and types avoid newline, comma and (for
names) an opening parenthesis, with at least one column per table,
rendering with `_format_schema_for_prompt` and re-parsing recovers the
original table-to-columns associations. -/
theorem C7_roundtrip (s : Schema) (h : schemaOk s) :
    parseSchema (_format_schema_for_prompt s) = some s := by
  cases s with
  | nil => rfl
  | cons e es =>
    unfold parseSchema
    rw [format_data]
    have hne : joinL "\n".data ((e :: es).map lineData) ≠ [] := by
      simp only [List.map_cons]
      exact joinL_ne_nil _ _ _ (lineData_ne_nil e)
    rw [if_neg (by simpa [List.isEmpty_iff] using hne)]
    rw [show ("\n".data) = ['\n'] from by decide]
    rw [splitChar_joinL '\n' _ (by simp) (by
      intro x hx
      obtain ⟨ee, hee, rfl⟩ := List.mem_map.mp hx
      exact newline_not_in_lineData ee (h ee hee))]
    exact parseLines_map _ h

/-- C7 witness: the round trip on the spec's example schema. -/
theorem C7_witness :
    parseSchema (_format_schema_for_prompt
        [("Sales.Orders", [⟨"OrderID", "int"⟩, ⟨"OrderDate", "datetime"⟩])]) =
      some [("Sales.Orders", [⟨"OrderID", "int"⟩, ⟨"OrderDate", "datetime"⟩])] :=
  C7_roundtrip [("Sales.Orders", [⟨"OrderID", "int"⟩, ⟨"OrderDate", "datetime"⟩])] (by decide)

/-- C8: when a fresh connect is attempted (no cached handle, or the
liveness probe failed) and the connect fails, `execute_query` returns
status=error with the wrapped description in the error field, data absent,
and the cached connection handle reset to `none`. -/
theorem C8_connect_failure_resets (st : Option Conn) (env : ConnEnv) (q : String)
    (db : Except String DBData) (e : String)
    (hconn : env.connectRes = .error e)
    (hfresh : st = none ∨ env.probeOk = false) :
    execute_query st env q db =
      ({ status := "error", query := q,
         error := some ("Failed to connect to database: " ++ e), data := none }, none) := by
  obtain ⟨pb, cr⟩ := env
  simp only at hconn hfresh
  subst hconn
  rcases hfresh with rfl | hpb
  · rfl
  · subst hpb
    cases st with
    | none => rfl
    | some c => rfl

/-- C8 witness: an unreachable host with no cached handle. -/
theorem C8_witness :
    execute_query none ⟨true, .error "timed out connecting to 10.0.0.7:1433"⟩
        "SELECT 1" (.ok ⟨[], []⟩) =
      ({ status := "error", query := "SELECT 1",
         error := some ("Failed to connect to database: " ++ "timed out connecting to 10.0.0.7:1433"),
         data := none }, none) :=
  C8_connect_failure_resets none ⟨true, .error "timed out connecting to 10.0.0.7:1433"⟩
    "SELECT 1" (.ok ⟨[], []⟩) "timed out connecting to 10.0.0.7:1433" rfl (Or.inl rfl)

/-- C9: failures at every boundary become data instead of exceptions:
introspection failure yields the empty mapping, completion failure yields
an `ERROR:`-prefixed string, execution failure yields a status=error
result with the error recorded, and every pipeline result carries status
error or success (all the operations are total). -/
theorem C9_failures_become_data (st xst pst : Option Conn) (env xenv genv2 xenv2 : ConnEnv)
    (e e2 e3 : String) (t : String) (cols : List Column) (rest : Schema)
    (q q2 q3 : String) (completion : Except String String)
    (catalog : Except String CatalogData) (dbExec : Except String DBData) :
    (get_table_schema st env (.error e)).1 = [] ∧
    generate_sql_query ((t, cols) :: rest) q (.error e2) =
      "ERROR: Failed to generate query: " ++ e2 ∧
    "ERROR:".data.isPrefixOf
        (generate_sql_query ((t, cols) :: rest) q (.error e2)).data = true ∧
    (execute_query xst xenv q2 (.error e3)).1.status = "error" ∧
    ((execute_query xst xenv q2 (.error e3)).1.error).isSome = true ∧
    ((natural_language_to_sql_results pst genv2 xenv2 catalog q3 completion dbExec).1.status = "error" ∨
     (natural_language_to_sql_results pst genv2 xenv2 catalog q3 completion dbExec).1.status = "success") := by
  refine ⟨?_, rfl, ?_, ?_, ?_, ?_⟩
  · obtain ⟨pb, cr⟩ := env
    cases st <;> cases pb <;> cases cr <;> rfl
  · have hsplit : "ERROR: Failed to generate query: " ++ e2 =
        "ERROR:" ++ (" Failed to generate query: " ++ e2) := by
      rw [← String.append_assoc]
      rfl
    rw [generate_nonempty_error, hsplit, String.data_append]
    exact isPrefixOf_append_self _ _
  · rcases execute_query_cases xst xenv q2 (.error e3) with ⟨d, hd, _⟩ | ⟨e4, hr⟩ | hr
    · exact absurd hd (by simp)
    · rw [hr]
    · rw [hr]
  · rcases execute_query_cases xst xenv q2 (.error e3) with ⟨d, hd, _⟩ | ⟨e4, hr⟩ | hr
    · exact absurd hd (by simp)
    · rw [hr]; rfl
    · rw [hr]; rfl
  · simp only [natural_language_to_sql_results]
    split
    · exact Or.inl rfl
    · rcases execute_query_status (get_table_schema pst genv2 catalog).2 xenv2
          (generate_sql_query (get_table_schema pst genv2 catalog).1 q3 completion) dbExec with
        h | h
      · exact Or.inr h
      · exact Or.inl h

/-- C10: when the fence-stripped completion text itself starts with
`ERROR` and contains no denylisted keyword, the pipeline classifies it as
a generation failure: it returns `{status: error, error: <that text>}`
with no query or data key, identically for every database oracle, even
though neither the completion call nor validation failed. -/
theorem C10_error_text_short_circuits (st : Option Conn) (genv xenv : ConnEnv)
    (catalog : Except String CatalogData) (q text : String) (dbExec : Except String DBData)
    (hne : (get_table_schema st genv catalog).1 ≠ [])
    (hpre : "ERROR".data.isPrefixOf (stripFences text).data = true)
    (hkw : isHarmful (stripFences text) = false) :
    generate_sql_query (get_table_schema st genv catalog).1 q (.ok text) = stripFences text ∧
    natural_language_to_sql_results st genv xenv catalog q (.ok text) dbExec =
      ({ status := "error", query := none, error := some (some (stripFences text)),
         data := none }, (get_table_schema st genv catalog).2) := by
  have hgen : generate_sql_query (get_table_schema st genv catalog).1 q (.ok text) =
      stripFences text := by
    unfold generate_sql_query
    rw [if_neg (by simpa [List.isEmpty_iff] using hne)]
    simp only [hkw, Bool.false_eq_true, if_false]
  refine ⟨hgen, ?_⟩
  simp only [natural_language_to_sql_results, hgen]
  rw [if_pos hpre]

/-- C10 witness: an `ERROR`-prefixed completion text with no denylisted
keyword short-circuits the pipeline. -/
theorem C10_witness :
    generate_sql_query
        (get_table_schema none ⟨true, .ok 0⟩ (.ok ⟨["S.T"], fun _ _ => [("c", "int")]⟩)).1
        "top orders" (.ok "ERROR: no suitable table found") =
      stripFences "ERROR: no suitable table found" ∧
    natural_language_to_sql_results none ⟨true, .ok 0⟩ ⟨true, .ok 0⟩
        (.ok ⟨["S.T"], fun _ _ => [("c", "int")]⟩) "top orders"
        (.ok "ERROR: no suitable table found") (.ok ⟨[], []⟩) =
      ({ status := "error", query := none,
         error := some (some (stripFences "ERROR: no suitable table found")), data := none },
       (get_table_schema none ⟨true, .ok 0⟩ (.ok ⟨["S.T"], fun _ _ => [("c", "int")]⟩)).2) :=
  C10_error_text_short_circuits none ⟨true, .ok 0⟩ ⟨true, .ok 0⟩
    (.ok ⟨["S.T"], fun _ _ => [("c", "int")]⟩) "top orders" "ERROR: no suitable table found"
    (.ok ⟨[], []⟩) (by decide)
    (by rw [stripFences_no_fence _ (by decide)]; decide)
    (by rw [stripFences_no_fence _ (by decide)]; decide)
